import Mathlib

/-!
Verification of the LINCS Gene Query Tool (src/app.py) against its
natural-language specification.

The development shallowly embeds the Python source:

* decoded JSON values become the inductive `PyVal`;
* a pandas `DataFrame` becomes `DataFrame` (column names plus rows of
  key/cell pairs; a missing key reads as the NaN cell);
* `validate_gene_name`, `lincs_cp` (with its retry loop) and
  `convert_df_to_csv` are translated function by function;
* the network is a parameter `net : Nat -> AttemptOutcome` giving the
  outcome of each fetch attempt, and the observable side effects
  (the logged URL, each HTTP attempt, each backoff sleep) are returned
  as an event trace.

Machine floats of the source are modelled as rationals; the character
model is the ASCII fragment (Python's `str.isalnum`/`str.strip` are
Unicode-aware, the gene symbols of this tool are ASCII).
-/

namespace LincsTool

/-- Decoded JSON value, as produced by `response.json()` in the source. -/
inductive PyVal where
  | vnull : PyVal
  | vbool (b : Bool) : PyVal
  | vnum (q : ℚ) : PyVal
  | vstr (s : String) : PyVal
  | vlist (xs : List PyVal) : PyVal
  | vobj (fields : List (String × PyVal)) : PyVal

/-- One cell of a DataFrame: either the NaN marker or a Python value. -/
inductive Cell where
  | nan : Cell
  | val (v : PyVal) : Cell

/-- One DataFrame row: the key/value pairs of the source record.  A key
absent from the row reads as `Cell.nan`, exactly as pandas fills absent
keys with NaN when building a DataFrame from a list of dicts. -/
abbrev Row := List (String × Cell)

/-- Model of a pandas DataFrame: the column names (in order) and the rows. -/
structure DataFrame where
  cols : List String
  rows : List Row

/-- The empty DataFrame `pd.DataFrame()` (line 72 of app.py). -/
def emptyDF : DataFrame := ⟨[], []⟩

/-- Cell lookup in a row; an absent key is NaN. -/
def rowLookup : Row → String → Cell
  | [], _ => .nan
  | kv :: t, c => if kv.1 = c then kv.2 else rowLookup t c

/-- Python whitespace (ASCII fragment), as stripped by `str.strip()`. -/
def isPySpace (c : Char) : Bool :=
  c = ' ' || c = '\t' || c = '\n' || c = '\r' || c = '\x0b' || c = '\x0c'

/-- Model of `str.strip()` (ASCII whitespace). -/
def pyStrip (s : String) : String :=
  String.mk (((s.data.dropWhile isPySpace).reverse.dropWhile isPySpace).reverse)

/-- ASCII fragment of Python's alphanumeric character test. -/
def isPyAlnumChar (c : Char) : Bool := c.isAlpha || c.isDigit

/-- Model of `str.isalnum()`: nonempty and every character alphanumeric
(the empty string is not alnum in Python). -/
def pyIsAlnum (s : String) : Bool :=
  !s.data.isEmpty && s.data.all isPyAlnumChar

/-- Model of `str.replace(c, '')`: remove every occurrence of `c`. -/
def removeChar (s : String) (c : Char) : String :=
  String.mk (s.data.filter (fun d => d ≠ c))

/-- Translation of `validate_gene_name` (app.py lines 19-25):
`if not gene ...: return False`, then strip, then
`len(gene) > 0 and gene.replace('-', '').replace('_', '').isalnum()`. -/
def validate_gene_name (gene : String) : Bool :=
  if gene = "" then false
  else
    let g := pyStrip gene
    decide (0 < g.length) && pyIsAlnum (removeChar (removeChar g '-') '_')

/-! ### The network model and the retry loop of `lincs_cp` -/

/-- Outcome of one `requests.get` attempt: a timeout, a connection-level
failure, or a completed HTTP response.  The response carries its status
code and its decoded JSON body (`none` when the body is not decodable,
in which case `r.json()` raises). -/
inductive AttemptOutcome where
  | timeout : AttemptOutcome
  | connError : AttemptOutcome
  | response (status : Nat) (body : Option PyVal) : AttemptOutcome

/-- Observable events of one `lincs_cp` call: the logged request URL
(line 41), each network attempt (line 49, 0-based as in the source), and
each backoff sleep with its duration in seconds (line 55/62). -/
inductive Ev where
  | urlLog (url : String) : Ev
  | call (attempt : Nat) : Ev
  | sleep (d : Nat) : Ev

/-- The distinct `ValueError` messages raised in `lincs_cp`. -/
inductive ValErr where
  | invalidGene : ValErr
  | invalidDirection : ValErr
  | invalidTopN : ValErr
  | notAList : ValErr
  | missingColumns : ValErr

/-- The two exhausted-retry network errors, plus the decode error; the
`except RequestException` handler shows them with distinct messages. -/
inductive NetErr where
  | timeoutExhausted : NetErr
  | connExhausted : NetErr
  | jsonDecode : NetErr

/-- Exceptions that the body of `lincs_cp` can raise into its handlers.
`jsonDecodeError` is `requests.exceptions.JSONDecodeError` raised by
`r.json()`; in requests >= 2.27 it is a subclass of `RequestException`
(and of `ValueError`), so the `except RequestException` clause, which
comes first, catches it. -/
inductive PyExc where
  | httpError (status : Nat) : PyExc
  | timeoutRaise : PyExc
  | connRaise : PyExc
  | jsonDecodeError : PyExc
  | valueError (k : ValErr) : PyExc
  | attributeError : PyExc

/-- The distinct user-facing error reports of `lincs_cp` (the `st.error`
branches of its exception handlers, lines 98-111). -/
inductive ErrMsg where
  | httpGeneNotFound (gene : String) : ErrMsg
  | httpServerError : ErrMsg
  | httpOtherError (status : Nat) : ErrMsg
  | networkError (k : NetErr) : ErrMsg
  | dataValidation (k : ValErr) : ErrMsg
  | unexpectedError : ErrMsg

/-- Result of one `lincs_cp` call: the returned DataFrame on success, or
the reported error (the Python function returns `None` and shows the
error message; the message kind is the observable error). -/
inductive Outcome where
  | success (df : DataFrame) : Outcome
  | failure (e : ErrMsg) : Outcome

/-- Translation of the retry loop (app.py lines 47-65).  `remaining` is
`max_retries - attempt`, so the source guard `attempt < max_retries - 1`
is `remaining >= 2`.  Each attempt records a `call` event; a retryable
failure with attempts left records the `sleep` and doubles the delay;
on the last attempt the exception is re-raised.  A completed response
passes through `raise_for_status()`, which raises `HTTPError` exactly
for status codes 400-599; that exception is not caught by the loop's
`except` clauses and exits the loop. -/
def tryAttempts (net : Nat → AttemptOutcome) :
    Nat → Nat → Nat → List Ev → Except PyExc (Nat × Option PyVal) × List Ev
  | remaining, attempt, delay, tr =>
    let tr1 := tr ++ [Ev.call attempt]
    match net attempt with
    | .response status body =>
      if 400 ≤ status ∧ status < 600 then (.error (.httpError status), tr1)
      else (.ok (status, body), tr1)
    | .timeout =>
      match remaining with
      | r + 2 => tryAttempts net (r + 1) (attempt + 1) (delay * 2) (tr1 ++ [Ev.sleep delay])
      | _ => (.error .timeoutRaise, tr1)
    | .connError =>
      match remaining with
      | r + 2 => tryAttempts net (r + 1) (attempt + 1) (delay * 2) (tr1 ++ [Ev.sleep delay])
      | _ => (.error .connRaise, tr1)

/-! ### Decoding and normalising the payload -/

/-- Python truthiness of a decoded JSON value, as tested by
`if not data:` on line 70 (empty list, empty dict, `null`, `0`, `False`
and the empty string are all falsy). -/
def pyFalsy : PyVal → Bool
  | .vnull => true
  | .vbool b => !b
  | .vnum q => decide (q = 0)
  | .vstr s => s.data.isEmpty
  | .vlist xs => xs.isEmpty
  | .vobj fs => fs.isEmpty

/-- Numeric value of a digit list (most significant first). -/
def digitsToNat (l : List Char) : Nat :=
  l.foldl (fun a c => a * 10 + (c.toNat - '0'.toNat)) 0

/-- Fragment of Python's string-to-float conversion used by
`pd.to_numeric`: an optional sign, then digits with an optional decimal
point.  Everything else (and in particular any non-numeric word) fails. -/
def parseDecimal (s : String) : Option ℚ :=
  let l := s.data
  let signed : Bool × List Char :=
    match l with
    | '-' :: t => (true, t)
    | '+' :: t => (false, t)
    | _ => (false, l)
  let ip := signed.2.takeWhile Char.isDigit
  let rest := signed.2.dropWhile Char.isDigit
  let mag : Option ℚ :=
    match rest with
    | [] => if ip.isEmpty then none else some (digitsToNat ip)
    | '.' :: fp =>
      if fp.all Char.isDigit && !(ip.isEmpty && fp.isEmpty) then
        some ((digitsToNat ip : ℚ) + (digitsToNat fp : ℚ) / (10 ^ fp.length))
      else none
    | _ => none
  mag.map (fun q => if signed.1 then -q else q)

/-- Values `pd.to_numeric` can coerce to a number: numbers themselves,
booleans (as 1/0) and numeric strings.  `None`, lists, dicts and
non-numeric strings cannot be coerced. -/
def toNumeric : PyVal → Option ℚ
  | .vnum q => some q
  | .vbool b => some (if b then 1 else 0)
  | .vstr s => parseDecimal s
  | _ => none

/-- Per-cell action of `pd.to_numeric(col, errors='coerce')`: a value
that cannot be coerced becomes the NaN marker. -/
def coerceCell : Cell → Cell
  | .nan => .nan
  | .val v =>
    match toNumeric v with
    | some q => .val (.vnum q)
    | none => .nan

/-- Keys of one decoded record (a non-dict record has no named keys). -/
def pyvalKeys : PyVal → List String
  | .vobj fs => fs.map Prod.fst
  | _ => []

/-- Append the new keys of one record, preserving first-appearance order. -/
def addKeys : List String → List String → List String
  | acc, [] => acc
  | acc, k :: t => addKeys (if k ∈ acc then acc else acc ++ [k]) t

/-- Column set pandas builds from a list of dict records: the union of
the keys in order of first appearance.  Only used in the all-dicts case
of `mkDataFrame` below. -/
def dfCols (data : List PyVal) : List String :=
  data.foldl (fun acc v => addKeys acc (pyvalKeys v)) []

/-- One DataFrame row built from one dict record; only reached in the
all-dicts case of `mkDataFrame` below. -/
def mkRow : PyVal → Row
  | .vobj fs => fs.map (fun kv => (kv.1, Cell.val kv.2))
  | _ => []

/-- A decoded record that is a JSON object (a Python dict). -/
def isObjRec : PyVal → Bool
  | .vobj _ => true
  | _ => false

/-- The frame pandas builds from a list of dict records: keyed columns
and one row per record, an absent key reading as NaN. -/
def mkObjFrame (data : List PyVal) : DataFrame :=
  ⟨dfCols data, data.map mkRow⟩

/-- Translation of `pd.DataFrame(data)` on line 77.  pandas dispatches
on the first element: a dict-led list must be all dicts, otherwise
`_list_of_dict_to_arrays` raises `AttributeError` (which the final
`except Exception` of `lincs_cp` catches); a non-dict-led list builds
positional integer-labelled columns — modelled here as the single label
`"0"` — so it never carries a string-labelled `CD Coefficient` column,
which is the only fact the program observes about such frames. -/
def mkDataFrame (data : List PyVal) : Except PyExc DataFrame :=
  match data with
  | [] => .ok emptyDF
  | v :: _ =>
    if isObjRec v = true then
      if data.all isObjRec = true then .ok (mkObjFrame data)
      else .error .attributeError
    else .ok ⟨["0"], data.map (fun x => [("0", Cell.val x)])⟩

/-- The numeric columns coerced on lines 86-89. -/
def numericColumns : List String :=
  ["CD Coefficient", "Fold Change", "Log2(Fold Change)"]

/-- Coerce the cell stored under `col` in one row. -/
def coerceRowAt (col : String) (r : Row) : Row :=
  r.map (fun kv => if kv.1 = col then (kv.1, coerceCell kv.2) else kv)

/-- Translation of `df[col] = pd.to_numeric(df[col], errors='coerce')`
guarded by `if col in df.columns` (lines 87-89). -/
def coerceColDF (df : DataFrame) (col : String) : DataFrame :=
  if col ∈ df.cols then ⟨df.cols, df.rows.map (coerceRowAt col)⟩ else df

/-- The numeric-coercion loop over the three schema columns. -/
def coerceNumericCols (df : DataFrame) : DataFrame :=
  numericColumns.foldl coerceColDF df

/-- Sort key of a row: its CD Coefficient cell reduced to an optional
number (after coercion this cell is always a number or NaN). -/
def cellKey : Cell → Option ℚ
  | .val (.vnum q) => some q
  | _ => none

/-- Comparator realising `sort_values(by="CD Coefficient",
ascending=False)` with pandas' default `na_position='last'`: numeric
keys in non-increasing order, NaN keys after every numeric key. -/
def cdLe (a b : Cell) : Bool :=
  match cellKey a, cellKey b with
  | some x, some y => decide (y ≤ x)
  | some _, none => true
  | none, some _ => false
  | none, none => true

/-- The CD Coefficient cell of a row. -/
def rowCD (r : Row) : Cell := rowLookup r "CD Coefficient"

/-- Row order used by the sort of line 92. -/
def RowLe (a b : Row) : Prop := cdLe (rowCD a) (rowCD b) = true

instance : DecidableRel RowLe := fun _ _ => decEq _ _

/-- Translation of `df.sort_values(by="CD Coefficient", ascending=False)`
(line 92): a comparison sort of the rows under `RowLe`. -/
def sortDF (df : DataFrame) : DataFrame :=
  ⟨df.cols, List.insertionSort RowLe df.rows⟩

/-- Translation of `df_sorted.head(top_n)` (line 93). -/
def headDF (df : DataFrame) (n : Int) : DataFrame :=
  ⟨df.cols, df.rows.take n.toNat⟩

/-- Translation of lines 67-93: decode the body (`r.json()` raises on an
undecodable body), return the empty DataFrame for a falsy value, reject
a non-list value, build the DataFrame, require the `CD Coefficient`
column, coerce the numeric columns, sort and truncate. -/
def decodeAndBuild (top_n : Int) (body : Option PyVal) : Except PyExc DataFrame :=
  match body with
  | none => .error .jsonDecodeError
  | some data =>
    if pyFalsy data then .ok emptyDF
    else
      match data with
      | .vlist recs =>
        match mkDataFrame recs with
        | .error e => .error e
        | .ok df =>
          if "CD Coefficient" ∈ df.cols then
            .ok (headDF (sortDF (coerceNumericCols df)) top_n)
          else .error (.valueError .missingColumns)
      | _ => .error (.valueError .notAList)

/-- The exception handlers of `lincs_cp` (lines 98-111), in source
order: `except HTTPError` distinguishes 404 and exactly 500 from other
codes; `except RequestException` shows a network error (this clause
also catches the JSON decode error of requests >= 2.27, because it
precedes `except ValueError`); `except ValueError` shows a data
validation error; the final `except Exception` shows the unexpected
error (reached e.g. by pandas' AttributeError on a mixed record list). -/
def handleExc (gene : String) : PyExc → ErrMsg
  | .httpError s =>
    if s = 404 then .httpGeneNotFound gene
    else if s = 500 then .httpServerError
    else .httpOtherError s
  | .timeoutRaise => .networkError .timeoutExhausted
  | .connRaise => .networkError .connExhausted
  | .jsonDecodeError => .networkError .jsonDecode
  | .valueError k => .dataValidation k
  | .attributeError => .unexpectedError

/-- The fixed base location of the remote endpoint (line 17). -/
def BASE : String := "https://lincs-reverse-search-dashboard.dev.maayanlab.cloud/api/table"

/-- Translation of line 40: the request target is the base location, the
direction and the trimmed gene symbol, joined literally (the source does
not percent-encode the symbol). -/
def buildUrl (gene direction : String) : String :=
  BASE ++ "/cp/" ++ direction ++ "/" ++ pyStrip gene

/-- Post-fetch stage of `lincs_cp`: map the loop's outcome through the
payload pipeline or through the exception handlers, keeping the trace. -/
def finishFetch (gene : String) (top_n : Int)
    (p : Except PyExc (Nat × Option PyVal) × List Ev) : Outcome × List Ev :=
  match p with
  | (.error e, tr) => (.failure (handleExc gene e), tr)
  | (.ok sb, tr) =>
    match decodeAndBuild top_n sb.2 with
    | .error e => (.failure (handleExc gene e), tr)
    | .ok df => (.success df, tr)

/-- Translation of `lincs_cp` (app.py lines 27-115).  The three
argument checks raise `ValueError` before any network activity; then
the URL is logged, the retry loop runs (`max_retries = 3`,
`retry_delay = 2`), and the decoded payload is normalised.  Every raised
exception is mapped to its handler's report.  The second component is
the observable event trace. -/
def lincs_cp (gene direction : String) (top_n : Int)
    (net : Nat → AttemptOutcome) : Outcome × List Ev :=
  if validate_gene_name gene = false then
    (.failure (.dataValidation .invalidGene), [])
  else if ¬(direction = "up" ∨ direction = "down") then
    (.failure (.dataValidation .invalidDirection), [])
  else if top_n ≤ 0 then
    (.failure (.dataValidation .invalidTopN), [])
  else
    finishFetch gene top_n (tryAttempts net 3 0 2 [Ev.urlLog (buildUrl gene direction)])

/-! ### Characterisation of `validate_gene_name` -/

/-- The character class accepted by the validator: alphanumeric, hyphen
or underscore. -/
def geneClassChar (c : Char) : Bool := isPyAlnumChar c || c = '-' || c = '_'

theorem pyStrip_empty : pyStrip "" = "" := rfl

theorem string_eq_empty_iff (s : String) : s = "" ↔ s.data = [] := by
  rw [String.ext_iff]

/-- A validated gene symbol, after stripping, is nonempty, lies in the
gene character class, and has at least one alphanumeric character; and
conversely.  This is the exact extension of `validate_gene_name`. -/
theorem validate_iff (gene : String) :
    validate_gene_name gene = true ↔
      ((pyStrip gene).data ≠ [] ∧
        (∀ c ∈ (pyStrip gene).data, geneClassChar c = true) ∧
        (∃ c ∈ (pyStrip gene).data, isPyAlnumChar c = true)) := by
  unfold validate_gene_name
  by_cases hg : gene = ""
  · subst hg
    simp [pyStrip_empty]
  · simp only [hg, if_false]
    set l := (pyStrip gene).data with hl
    have hlen : (pyStrip gene).length = l.length := rfl
    have hrem : (removeChar (removeChar (pyStrip gene) '-') '_').data
        = (l.filter (fun d => decide (d ≠ '-'))).filter (fun d => decide (d ≠ '_')) := rfl
    constructor
    · intro h
      rw [Bool.and_eq_true] at h
      obtain ⟨h1, h2⟩ := h
      unfold pyIsAlnum at h2
      rw [Bool.and_eq_true] at h2
      obtain ⟨h2a, h2b⟩ := h2
      rw [hrem] at h2a h2b
      rw [List.all_eq_true] at h2b
      have hne : (l.filter (fun d => decide (d ≠ '-'))).filter (fun d => decide (d ≠ '_')) ≠ [] := by
        intro he
        rw [he] at h2a
        exact absurd h2a (by simp)
      refine ⟨?_, ?_, ?_⟩
      · intro he
        rw [hlen] at h1
        rw [he] at h1
        exact absurd h1 (by simp)
      · intro c hc
        unfold geneClassChar
        by_cases hcd : c = '-'
        · simp [hcd]
        · by_cases hcu : c = '_'
          · simp [hcu]
          · have : c ∈ (l.filter (fun d => decide (d ≠ '-'))).filter (fun d => decide (d ≠ '_')) := by
              rw [List.mem_filter, List.mem_filter]
              exact ⟨⟨hc, by simp [hcd]⟩, by simp [hcu]⟩
            simp [h2b c this]
      · obtain ⟨c, hc⟩ := List.exists_mem_of_ne_nil _ hne
        rw [List.mem_filter, List.mem_filter] at hc
        exact ⟨c, hc.1.1, h2b c (by rw [List.mem_filter, List.mem_filter]; exact hc)⟩
    · rintro ⟨hne, hclass, c0, hc0, hc0a⟩
      have hc0d : c0 ≠ '-' := by
        intro h
        rw [h] at hc0a
        exact absurd hc0a (by decide)
      have hc0u : c0 ≠ '_' := by
        intro h
        rw [h] at hc0a
        exact absurd hc0a (by decide)
      have hc0m : c0 ∈ (l.filter (fun d => decide (d ≠ '-'))).filter (fun d => decide (d ≠ '_')) := by
        rw [List.mem_filter, List.mem_filter]
        exact ⟨⟨hc0, by simp [hc0d]⟩, by simp [hc0u]⟩
      rw [Bool.and_eq_true]
      refine ⟨by simp [hlen, List.length_pos, hne], ?_⟩
      unfold pyIsAlnum
      rw [Bool.and_eq_true, hrem]
      constructor
      · rcases hfe : (l.filter (fun d => decide (d ≠ '-'))).filter (fun d => decide (d ≠ '_')) with _ | _
        · rw [hfe] at hc0m; exact absurd hc0m (by simp)
        · simp
      · rw [List.all_eq_true]
        intro c hc
        rw [List.mem_filter, List.mem_filter] at hc
        have := hclass c hc.1.1
        unfold geneClassChar at this
        rcases Bool.or_eq_true_iff.mp this with h | h
        · rcases Bool.or_eq_true_iff.mp h with h | h
          · exact h
          · exact absurd (by simpa using hc.1.2) (by simp [of_decide_eq_true h])
        · exact absurd (by simpa using hc.2) (by simp [of_decide_eq_true h])

/-! ### Claim C4: the validator contract -/

/-- C4 counterexample: the claim states that every non-empty string made
only of characters from `[A-Za-z0-9_-]` is accepted, but the source
rejects `"-"`: stripping leaves it non-empty and inside the class, yet
`"-".replace('-','').replace('_','').isalnum()` is `False` because the
replacement leaves the empty string. -/
theorem validate_hyphen_counterexample :
    validate_gene_name "-" = false ∧
      pyStrip "-" ≠ "" ∧
      (pyStrip "-").data.all geneClassChar = true := by
  refine ⟨by decide, ?_, by decide⟩
  intro h
  have : (pyStrip "-").data = [] := (string_eq_empty_iff _).mp h
  exact absurd this (by decide)

/-- C4 (amended): `validate_gene_name` returns true iff, after trimming
whitespace, the string is non-empty, consists only of alphanumerics,
hyphens and underscores, and contains at least one alphanumeric
character (a string of hyphens/underscores only is rejected; empty and
whitespace-only strings are rejected since stripping empties them).
Character tests use the ASCII fragment of Python's semantics. -/
theorem validate_gene_name_class_iff (gene : String) :
    validate_gene_name gene = true ↔
      (pyStrip gene ≠ "" ∧
        (∀ c ∈ (pyStrip gene).data, geneClassChar c = true) ∧
        (∃ c ∈ (pyStrip gene).data, isPyAlnumChar c = true)) := by
  rw [validate_iff]
  simp only [ne_eq, string_eq_empty_iff]

/-- C4 witness: the amended equivalence applied at the concrete inputs
`"BRAF"` (accepted) and `"TP53!"` (rejected). -/
theorem validate_gene_name_class_iff_witness :
    validate_gene_name "BRAF" = true ∧ validate_gene_name "TP53!" ≠ true := by
  constructor
  · exact (validate_gene_name_class_iff "BRAF").mpr
      ⟨by intro h; exact absurd ((string_eq_empty_iff _).mp h) (by decide),
        by decide, ⟨'B', by decide, by decide⟩⟩
  · intro h
    obtain ⟨-, hclass, -⟩ := (validate_gene_name_class_iff "TP53!").mp h
    exact absurd (hclass '!' (by decide)) (by decide)

/-! ### Claim C8: invalid arguments fail before any network activity -/

/-- C8: an invalid gene symbol, a direction outside `up`/`down`, or a
non-positive limit makes `lincs_cp` report the corresponding argument
`ValueError` with an empty event trace: no URL is logged, no network
attempt is made, no retry happens.  The scenario conjunct shows
`"TP53!"` is rejected by the validator. -/
theorem lincs_cp_invalid_args (gene direction : String) (n : Int)
    (net : Nat → AttemptOutcome) :
    (validate_gene_name gene = false →
      lincs_cp gene direction n net = (.failure (.dataValidation .invalidGene), [])) ∧
    (validate_gene_name gene = true → ¬(direction = "up" ∨ direction = "down") →
      lincs_cp gene direction n net = (.failure (.dataValidation .invalidDirection), [])) ∧
    (validate_gene_name gene = true → (direction = "up" ∨ direction = "down") → n ≤ 0 →
      lincs_cp gene direction n net = (.failure (.dataValidation .invalidTopN), [])) ∧
    validate_gene_name "TP53!" = false := by
  refine ⟨?_, ?_, ?_, by decide⟩
  · intro h
    simp [lincs_cp, h]
  · intro h hd
    simp [lincs_cp, h, hd]
  · intro h hd hn
    simp [lincs_cp, h, hd, hn]

/-- C8 witness: the invalid-gene case at the concrete scenario input
`gene = "TP53!"`: the call fails with the argument error and an empty
trace, hence no network call. -/
theorem lincs_cp_invalid_args_witness :
    lincs_cp "TP53!" "up" 5 (fun _ => .timeout)
      = (.failure (.dataValidation .invalidGene), []) :=
  (lincs_cp_invalid_args "TP53!" "up" 5 (fun _ => .timeout)).1 (by decide)

/-! ### Claim C2: the retry and backoff policy -/

/-- An attempt outcome the loop retries on. -/
def retryable : AttemptOutcome → Bool
  | .timeout => true
  | .connError => true
  | .response _ _ => false

/-- The network attempts recorded in a trace. -/
def callsOf (tr : List Ev) : List Nat :=
  tr.filterMap (fun e => match e with | .call i => some i | _ => none)

/-- The backoff sleeps recorded in a trace. -/
def sleepsOf (tr : List Ev) : List Nat :=
  tr.filterMap (fun e => match e with | .sleep d => some d | _ => none)

theorem finishFetch_snd (gene : String) (n : Int)
    (p : Except PyExc (Nat × Option PyVal) × List Ev) :
    (finishFetch gene n p).2 = p.2 := by
  rcases p with ⟨x, tr⟩
  cases x with
  | error e => rfl
  | ok sb =>
    show (match decodeAndBuild n sb.2 with
      | .error e => (Outcome.failure (handleExc gene e), tr)
      | .ok df => (Outcome.success df, tr)).2 = tr
    cases decodeAndBuild n sb.2 <;> rfl

/-- Exact shape of the event trace of one `lincs_cp` call: empty when an
argument check fails, otherwise the logged URL, attempt 0, and one
backoff/attempt pair for each retried failure (delay 2, then 4). -/
theorem lincs_cp_trace_eq (gene direction : String) (n : Int)
    (net : Nat → AttemptOutcome) :
    (lincs_cp gene direction n net).2 =
      if validate_gene_name gene = false then []
      else if ¬(direction = "up" ∨ direction = "down") then []
      else if n ≤ 0 then []
      else
        [Ev.urlLog (buildUrl gene direction), Ev.call 0] ++
          (if retryable (net 0) then
            [Ev.sleep 2, Ev.call 1] ++
              (if retryable (net 1) then [Ev.sleep 4, Ev.call 2] else [])
          else []) := by
  unfold lincs_cp
  by_cases h1 : validate_gene_name gene = false
  · simp [h1]
  · by_cases h2 : direction = "up" ∨ direction = "down"
    · by_cases h3 : n ≤ 0
      · simp [h1, h2, h3]
      · rw [if_neg h1, if_neg (not_not_intro h2), if_neg h3, if_neg h1,
          if_neg (not_not_intro h2), if_neg h3, finishFetch_snd]
        cases hn0 : net 0 with
        | response s b =>
          simp [tryAttempts, hn0, retryable, apply_ite Prod.snd]
        | timeout =>
          cases hn1 : net 1 with
          | response s b =>
            simp [tryAttempts, hn0, hn1, retryable, apply_ite Prod.snd]
          | timeout =>
            cases hn2 : net 2 <;>
              simp [tryAttempts, hn0, hn1, hn2, retryable, apply_ite Prod.snd]
          | connError =>
            cases hn2 : net 2 <;>
              simp [tryAttempts, hn0, hn1, hn2, retryable, apply_ite Prod.snd]
        | connError =>
          cases hn1 : net 1 with
          | response s b =>
            simp [tryAttempts, hn0, hn1, retryable, apply_ite Prod.snd]
          | timeout =>
            cases hn2 : net 2 <;>
              simp [tryAttempts, hn0, hn1, hn2, retryable, apply_ite Prod.snd]
          | connError =>
            cases hn2 : net 2 <;>
              simp [tryAttempts, hn0, hn1, hn2, retryable, apply_ite Prod.snd]
    · simp [h1, h2]

theorem retryable_cases (x : AttemptOutcome) (h : retryable x = true) :
    x = .timeout ∨ x = .connError := by
  cases x with
  | timeout => exact Or.inl rfl
  | connError => exact Or.inr rfl
  | response s b => exact absurd h (by simp [retryable])

/-- C2: the retry policy of `lincs_cp`.  For every network behaviour:
at most 3 attempts are made; the backoff sleeps are a prefix of `2, 4`
(doubling from the 2-second base); an attempt `i + 1` happens only when
attempt `i` timed out or failed to connect; when all three attempts
time out (resp. fail to connect) the call fails with the exhausted
timeout (resp. connection) network error, the two kinds distinguished,
after exactly the trace `call 0, sleep 2, call 1, sleep 4, call 2`; and
in the concrete scenario where attempts 1 and 2 time out and attempt 3
returns HTTP 200, the call succeeds after backoff waits 2 and 4. -/
theorem lincs_cp_retry_policy (gene direction : String) (n : Int)
    (net : Nat → AttemptOutcome) :
    (callsOf (lincs_cp gene direction n net).2).length ≤ 3 ∧
    (sleepsOf (lincs_cp gene direction n net).2 = [] ∨
      sleepsOf (lincs_cp gene direction n net).2 = [2] ∨
      sleepsOf (lincs_cp gene direction n net).2 = [2, 4]) ∧
    (∀ i : Nat, (i + 1) ∈ callsOf (lincs_cp gene direction n net).2 →
      net i = .timeout ∨ net i = .connError) ∧
    (validate_gene_name gene = true → (direction = "up" ∨ direction = "down") →
      0 < n → (∀ i, i < 3 → net i = .timeout) →
      lincs_cp gene direction n net =
        (.failure (.networkError .timeoutExhausted),
          [.urlLog (buildUrl gene direction), .call 0, .sleep 2, .call 1,
            .sleep 4, .call 2])) ∧
    (validate_gene_name gene = true → (direction = "up" ∨ direction = "down") →
      0 < n → (∀ i, i < 3 → net i = .connError) →
      lincs_cp gene direction n net =
        (.failure (.networkError .connExhausted),
          [.urlLog (buildUrl gene direction), .call 0, .sleep 2, .call 1,
            .sleep 4, .call 2])) ∧
    lincs_cp "BRAF" "up" 5
        (fun i => if i < 2 then .timeout else .response 200 (some (.vlist [])))
      = (.success emptyDF,
          [.urlLog (buildUrl "BRAF" "up"), .call 0, .sleep 2, .call 1,
            .sleep 4, .call 2]) := by
  have htr := lincs_cp_trace_eq gene direction n net
  refine ⟨?_, ?_, ?_, ?_, ?_, ?_⟩
  · rw [htr]
    split_ifs <;> simp [callsOf]
  · rw [htr]
    split_ifs <;> simp [sleepsOf]
  · intro i hi
    rw [htr] at hi
    split_ifs at hi with h1 h2 h3 hr0 hr1 <;> simp [callsOf] at hi
    · rcases hi with rfl | rfl
      exacts [retryable_cases _ hr0, retryable_cases _ hr1]
    · subst hi
      exact retryable_cases _ hr0
  · intro hv hd hn hnet
    have hn' : ¬n ≤ 0 := by omega
    have e0 := hnet 0 (by omega)
    have e1 := hnet 1 (by omega)
    have e2 := hnet 2 (by omega)
    rcases hd with hd | hd <;> subst hd <;>
      simp [lincs_cp, hv, hn', finishFetch, tryAttempts, e0, e1, e2, handleExc]
  · intro hv hd hn hnet
    have hn' : ¬n ≤ 0 := by omega
    have e0 := hnet 0 (by omega)
    have e1 := hnet 1 (by omega)
    have e2 := hnet 2 (by omega)
    rcases hd with hd | hd <;> subst hd <;>
      simp [lincs_cp, hv, hn', finishFetch, tryAttempts, e0, e1, e2, handleExc]
  · rfl

/-- C2 witness: the exhausted-timeout clause applied at concrete inputs
(gene `"BRAF"`, direction `"up"`, limit 5, every attempt timing out). -/
theorem lincs_cp_retry_policy_witness :
    lincs_cp "BRAF" "up" 5 (fun _ => .timeout)
      = (.failure (.networkError .timeoutExhausted),
          [.urlLog (buildUrl "BRAF" "up"), .call 0, .sleep 2, .call 1,
            .sleep 4, .call 2]) :=
  (lincs_cp_retry_policy "BRAF" "up" 5 (fun _ => .timeout)).2.2.2.1
    (by decide) (Or.inl rfl) (by omega) (fun i _ => rfl)

/-! ### Claim C3: non-2xx responses -/

/-- C3 counterexample.  The claim says every non-2xx status surfaces an
`HttpError` carrying the status, with distinguished messaging for any
5xx status.  But `raise_for_status()` only raises for 400-599, so a 304
response raises no `HTTPError` at all (the call then fails decoding the
empty body); and the source special-cases exactly 500, so a 503
response gets the generic catch-all message, not the distinguished
upstream-unavailable one. -/
theorem lincs_cp_http_status_counterexample :
    lincs_cp "BRAF" "up" 5 (fun _ => .response 304 none)
      = (.failure (.networkError .jsonDecode),
          [.urlLog (buildUrl "BRAF" "up"), .call 0]) ∧
    lincs_cp "BRAF" "up" 5 (fun _ => .response 503 (some (.vlist [])))
      = (.failure (.httpOtherError 503),
          [.urlLog (buildUrl "BRAF" "up"), .call 0]) ∧
    ErrMsg.httpOtherError 503 ≠ ErrMsg.httpServerError ∧
    lincs_cp "BRAF" "up" 5 (fun _ => .response 502 (some (.vlist [])))
      = (.failure (.httpOtherError 502),
          [.urlLog (buildUrl "BRAF" "up"), .call 0]) := by
  refine ⟨rfl, rfl, ?_, rfl⟩
  intro h
  cases h

/-- C3 (amended): a first attempt completing with a status in 400-599
is never retried: the call stops after that one attempt (trace
`urlLog, call 0`) and reports the HTTP error for that status, with
distinguished messaging for 404 (gene unknown to the data source), for
exactly 500 (upstream unavailable), and the generic message carrying
the code for every other status in that range.  Statuses outside
400-599 do not raise `HTTPError` (see the counterexample). -/
theorem lincs_cp_http_status (gene direction : String) (n : Int)
    (net : Nat → AttemptOutcome) (status : Nat) (body : Option PyVal) :
    validate_gene_name gene = true → (direction = "up" ∨ direction = "down") →
    0 < n → net 0 = .response status body → 400 ≤ status → status < 600 →
    ((status = 404 → lincs_cp gene direction n net =
        (.failure (.httpGeneNotFound gene),
          [.urlLog (buildUrl gene direction), .call 0])) ∧
     (status = 500 → lincs_cp gene direction n net =
        (.failure .httpServerError,
          [.urlLog (buildUrl gene direction), .call 0])) ∧
     (status ≠ 404 → status ≠ 500 → lincs_cp gene direction n net =
        (.failure (.httpOtherError status),
          [.urlLog (buildUrl gene direction), .call 0]))) := by
  intro hv hd hn hnet0 h400 h600
  have hn' : ¬n ≤ 0 := by omega
  have hcond : 400 ≤ status ∧ status < 600 := ⟨h400, h600⟩
  refine ⟨?_, ?_, ?_⟩
  · rintro rfl
    rcases hd with rfl | rfl <;>
      simp [lincs_cp, hv, hn', tryAttempts, hnet0, finishFetch, handleExc, hcond]
  · rintro rfl
    rcases hd with rfl | rfl <;>
      simp [lincs_cp, hv, hn', tryAttempts, hnet0, finishFetch, handleExc, hcond]
  · intro h404 h500
    rcases hd with rfl | rfl <;>
      simp [lincs_cp, hv, hn', tryAttempts, hnet0, finishFetch, handleExc,
        hcond, h404, h500]

/-- C3 witness: the 404 clause applied at the concrete scenario input:
a 404 response yields the gene-not-found report and no retry. -/
theorem lincs_cp_http_status_witness :
    lincs_cp "BRAF" "up" 5 (fun _ => .response 404 none)
      = (.failure (.httpGeneNotFound "BRAF"),
          [.urlLog (buildUrl "BRAF" "up"), .call 0]) :=
  (lincs_cp_http_status "BRAF" "up" 5 (fun _ => .response 404 none) 404 none
    (by decide) (Or.inl rfl) (by omega) rfl (by omega) (by omega)).1 rfl

/-! ### Claim C5: decoded body shape -/

/-- C5 counterexample.  The claim says a decoded JSON object (instead
of a list) fails with the malformed-response error.  But line 70 tests
Python falsiness before the list check, and the empty object `{}` is
falsy, so the call returns success with the empty row set. -/
theorem lincs_cp_body_shape_counterexample :
    lincs_cp "BRAF" "up" 5 (fun _ => .response 200 (some (.vobj [])))
      = (.success emptyDF, [.urlLog (buildUrl "BRAF" "up"), .call 0]) ∧
    (∀ e : ErrMsg, Outcome.success emptyDF ≠ Outcome.failure e) := by
  refine ⟨rfl, ?_⟩
  intro e h
  cases h

/-- C5 (amended): on a 2xx response, an undecodable body fails the call
(reported through the network-error branch, since the decode error of
requests >= 2.27 is a `RequestException`); a truthy decoded value that
is not a list fails with the not-a-list `ValueError` (the
malformed-response report); a falsy decoded value — the empty list, but
equally the empty object, `null`, `0`, `False` or the empty string —
returns success with the empty row set, which is distinct from every
error outcome. -/
theorem lincs_cp_body_shape (gene direction : String) (n : Int)
    (net : Nat → AttemptOutcome) (status : Nat) :
    validate_gene_name gene = true → (direction = "up" ∨ direction = "down") →
    0 < n → 200 ≤ status → status < 300 →
    ((net 0 = .response status none →
       lincs_cp gene direction n net = (.failure (.networkError .jsonDecode),
         [.urlLog (buildUrl gene direction), .call 0])) ∧
     (∀ data, net 0 = .response status (some data) → pyFalsy data = true →
       lincs_cp gene direction n net = (.success emptyDF,
         [.urlLog (buildUrl gene direction), .call 0])) ∧
     (∀ data, net 0 = .response status (some data) → pyFalsy data = false →
       (∀ xs, data ≠ PyVal.vlist xs) →
       lincs_cp gene direction n net = (.failure (.dataValidation .notAList),
         [.urlLog (buildUrl gene direction), .call 0])) ∧
     (∀ (df : DataFrame) (e : ErrMsg), Outcome.success df ≠ Outcome.failure e)) := by
  intro hv hd hn h200 h300
  have hn' : ¬n ≤ 0 := by omega
  have hcond : ¬(400 ≤ status ∧ status < 600) := by omega
  refine ⟨?_, ?_, ?_, ?_⟩
  · intro hnet0
    rcases hd with rfl | rfl <;>
      simp [lincs_cp, hv, hn', tryAttempts, hnet0, finishFetch, handleExc,
        hcond, decodeAndBuild]
  · intro data hnet0 hfalsy
    rcases hd with rfl | rfl <;>
      simp [lincs_cp, hv, hn', tryAttempts, hnet0, finishFetch, handleExc,
        hcond, decodeAndBuild, hfalsy]
  · intro data hnet0 hfalsy hnl
    have hfetch : tryAttempts net 3 0 2 [Ev.urlLog (buildUrl gene direction)]
        = (.ok (status, some data), [Ev.urlLog (buildUrl gene direction), .call 0]) := by
      simp only [tryAttempts, hnet0]
      rw [if_neg hcond]
      rfl
    cases data with
    | vlist xs => exact absurd rfl (hnl xs)
    | vnull => simp [pyFalsy] at hfalsy
    | vbool b =>
      rcases hd with rfl | rfl <;>
        simp [lincs_cp, hv, hn', hfetch, finishFetch, decodeAndBuild, hfalsy, handleExc]
    | vnum q =>
      rcases hd with rfl | rfl <;>
        simp [lincs_cp, hv, hn', hfetch, finishFetch, decodeAndBuild, hfalsy, handleExc]
    | vstr s =>
      rcases hd with rfl | rfl <;>
        simp [lincs_cp, hv, hn', hfetch, finishFetch, decodeAndBuild, hfalsy, handleExc]
    | vobj fs =>
      rcases hd with rfl | rfl <;>
        simp [lincs_cp, hv, hn', hfetch, finishFetch, decodeAndBuild, hfalsy, handleExc]
  · intro df e h
    cases h

/-- C5 witness: the falsy-body clause applied at the concrete scenario
input: the endpoint returns the empty list and the call succeeds with
the empty row set. -/
theorem lincs_cp_body_shape_witness :
    lincs_cp "BRAF" "up" 5 (fun _ => .response 200 (some (.vlist [])))
      = (.success emptyDF, [.urlLog (buildUrl "BRAF" "up"), .call 0]) :=
  ((lincs_cp_body_shape "BRAF" "up" 5
      (fun _ => .response 200 (some (.vlist []))) 200
      (by decide) (Or.inl rfl) (by omega) (by omega) (by omega)).2.1)
    (.vlist []) rfl (by decide)

/-! ### Claim C1: the result is sorted, missing values last, bounded -/

instance : IsTotal Row RowLe where
  total a b := by
    unfold RowLe cdLe
    rcases h1 : cellKey (rowCD a) with _ | x <;>
      rcases h2 : cellKey (rowCD b) with _ | y <;> simp
    exact le_total y x

instance : IsTrans Row RowLe where
  trans a b c hab hbc := by
    unfold RowLe cdLe at *
    rcases h1 : cellKey (rowCD a) with _ | x <;>
      rcases h2 : cellKey (rowCD b) with _ | y <;>
        rcases h3 : cellKey (rowCD c) with _ | z <;>
          simp_all
    exact le_trans hbc hab

/-- Every successful payload pipeline result is sorted under the
CD-descending-NaN-last order and holds at most `top_n` rows. -/
theorem decodeAndBuild_ok_sorted (n : Int) (b : Option PyVal) (df : DataFrame)
    (h : decodeAndBuild n b = .ok df) :
    List.Sorted RowLe df.rows ∧ df.rows.length ≤ n.toNat := by
  cases b with
  | none => exact absurd h (by simp [decodeAndBuild])
  | some data =>
    simp only [decodeAndBuild] at h
    by_cases hf : pyFalsy data = true
    · rw [if_pos hf] at h
      injection h with h
      subst h
      exact ⟨List.sorted_nil, Nat.zero_le _⟩
    · rw [if_neg hf] at h
      cases data with
      | vlist recs =>
        simp only at h
        rcases hmk : mkDataFrame recs with e | df0
        · rw [hmk] at h
          exact absurd h (by simp)
        · rw [hmk] at h
          simp only at h
          by_cases hc : "CD Coefficient" ∈ df0.cols
          · rw [if_pos hc] at h
            injection h with h
            subst h
            constructor
            · exact List.Pairwise.sublist (List.take_sublist _ _)
                (List.sorted_insertionSort RowLe _)
            · simp [headDF]
          · rw [if_neg hc] at h
            exact absurd h (by simp)
      | vnull => exact absurd h (by simp)
      | vbool b => exact absurd h (by simp)
      | vnum q => exact absurd h (by simp)
      | vstr s => exact absurd h (by simp)
      | vobj fs => exact absurd h (by simp)

theorem finishFetch_err_eq (gene : String) (n : Int) (e : PyExc) (tr : List Ev) :
    finishFetch gene n (.error e, tr) = (.failure (handleExc gene e), tr) := rfl

theorem finishFetch_ok_eq (gene : String) (n : Int) (sb : Nat × Option PyVal)
    (tr : List Ev) :
    finishFetch gene n (.ok sb, tr)
      = (match decodeAndBuild n sb.2 with
          | .error e => (Outcome.failure (handleExc gene e), tr)
          | .ok df => (Outcome.success df, tr)) := rfl

theorem finishFetch_ok_ok (gene : String) (n : Int) (sb : Nat × Option PyVal)
    (tr : List Ev) (df : DataFrame) (h : decodeAndBuild n sb.2 = .ok df) :
    finishFetch gene n (.ok sb, tr) = (.success df, tr) := by
  rw [finishFetch_ok_eq, h]

theorem finishFetch_ok_err (gene : String) (n : Int) (sb : Nat × Option PyVal)
    (tr : List Ev) (e : PyExc) (h : decodeAndBuild n sb.2 = .error e) :
    finishFetch gene n (.ok sb, tr) = (.failure (handleExc gene e), tr) := by
  rw [finishFetch_ok_eq, h]

/-- The CD column of a successful outcome. -/
def resultCD : Outcome → Option (List Cell)
  | .success df => some (df.rows.map rowCD)
  | .failure _ => none

/-- The 8-record payload of the specification scenario: CD Coefficient
values 0.1, 0.9, -0.2, 0.5, 0.3, 0.7, missing, 0.05 in arrival order. -/
def scenarioPayload : List PyVal :=
  [ .vobj [("Perturbagen", .vstr "p0"), ("CD Coefficient", .vnum (mkRat 1 10))]
  , .vobj [("Perturbagen", .vstr "p1"), ("CD Coefficient", .vnum (mkRat 9 10))]
  , .vobj [("Perturbagen", .vstr "p2"), ("CD Coefficient", .vnum (mkRat (-2) 10))]
  , .vobj [("Perturbagen", .vstr "p3"), ("CD Coefficient", .vnum (mkRat 5 10))]
  , .vobj [("Perturbagen", .vstr "p4"), ("CD Coefficient", .vnum (mkRat 3 10))]
  , .vobj [("Perturbagen", .vstr "p5"), ("CD Coefficient", .vnum (mkRat 7 10))]
  , .vobj [("Perturbagen", .vstr "p6")]
  , .vobj [("Perturbagen", .vstr "p7"), ("CD Coefficient", .vnum (mkRat 5 100))] ]

/-- C1: every successful `lincs_cp` result is sorted non-increasing by
CD Coefficient with missing-value rows after every present-value row,
and holds at most `top_n` rows; and in the concrete scenario
(`direction="up"`, `gene="BRAF"`, `limit=5`, the 8-record payload with
values 0.1, 0.9, -0.2, 0.5, 0.3, 0.7, missing, 0.05) the result is the
five records with values 0.9, 0.7, 0.5, 0.3, 0.1 in that order. -/
theorem lincs_cp_sorted_bounded :
    (∀ (gene direction : String) (n : Int) (net : Nat → AttemptOutcome)
        (df : DataFrame) (tr : List Ev),
      lincs_cp gene direction n net = (.success df, tr) →
      List.Sorted RowLe df.rows ∧
      df.rows.length ≤ n.toNat ∧
      (∀ i j : Fin df.rows.length, i < j →
        ∀ x y : ℚ, cellKey (rowCD (df.rows.get i)) = some x →
          cellKey (rowCD (df.rows.get j)) = some y → y ≤ x) ∧
      (∀ i j : Fin df.rows.length, i < j →
        cellKey (rowCD (df.rows.get i)) = none →
        cellKey (rowCD (df.rows.get j)) = none)) ∧
    resultCD (lincs_cp "BRAF" "up" 5
        (fun _ => .response 200 (some (.vlist scenarioPayload)))).1
      = some [.val (.vnum (mkRat 9 10)), .val (.vnum (mkRat 7 10)),
          .val (.vnum (mkRat 5 10)), .val (.vnum (mkRat 3 10)),
          .val (.vnum (mkRat 1 10))] := by
  constructor
  · intro gene direction n net df tr h
    unfold lincs_cp at h
    split_ifs at h with h1 h2 h3
    all_goals try exact Outcome.noConfusion (congrArg Prod.fst h)
    rcases htry : tryAttempts net 3 0 2 [Ev.urlLog (buildUrl gene direction)]
      with ⟨res, tr2⟩
    rw [htry] at h
    cases res with
    | error e =>
      rw [finishFetch_err_eq] at h
      exact Outcome.noConfusion (congrArg Prod.fst h)
    | ok sb =>
      rcases hdec : decodeAndBuild n sb.2 with e | df2
      · rw [finishFetch_ok_err gene n sb tr2 e hdec] at h
        exact Outcome.noConfusion (congrArg Prod.fst h)
      · rw [finishFetch_ok_ok gene n sb tr2 df2 hdec] at h
        have hdf : df2 = df := by
          have := congrArg Prod.fst h
          simpa using this
        subst hdf
        obtain ⟨hs, hlen⟩ := decodeAndBuild_ok_sorted n sb.2 df2 hdec
        refine ⟨hs, hlen, ?_, ?_⟩
        · intro i j hij x y hx hy
          have hp := List.pairwise_iff_get.mp hs i j hij
          unfold RowLe cdLe at hp
          rw [hx, hy] at hp
          simpa using hp
        · intro i j hij hx
          have hp := List.pairwise_iff_get.mp hs i j hij
          unfold RowLe cdLe at hp
          rw [hx] at hp
          rcases hy : cellKey (rowCD (df2.rows.get j)) with _ | y
          · rfl
          · rw [hy] at hp
            simp at hp
  · rfl

/-- C1 witness: the universal clause applied at the concrete scenario
run (the same 8-record payload), discharging its success hypothesis. -/
theorem lincs_cp_sorted_bounded_witness :
    List.Sorted RowLe
      (headDF (sortDF (coerceNumericCols (mkObjFrame scenarioPayload))) 5).rows :=
  (lincs_cp_sorted_bounded.1 "BRAF" "up" 5
    (fun _ => .response 200 (some (.vlist scenarioPayload)))
    (headDF (sortDF (coerceNumericCols (mkObjFrame scenarioPayload))) 5)
    [.urlLog (buildUrl "BRAF" "up"), .call 0] rfl).1

/-! ### Claim C7: per-row numeric coercion never aborts the call -/

/-- The keys named by a row. -/
def rowKeys (r : Row) : List String := r.map Prod.fst

/-- The full per-record numeric coercion of lines 86-89, row by row:
each of the three schema columns is coerced in loop order. -/
def coerceRec (rec : PyVal) : Row :=
  coerceRowAt "Log2(Fold Change)" (coerceRowAt "Fold Change"
    (coerceRowAt "CD Coefficient" (mkRow rec)))

theorem coerceRowAt_of_not_mem (col : String) (r : Row)
    (h : col ∉ rowKeys r) : coerceRowAt col r = r := by
  induction r with
  | nil => rfl
  | cons kv t ih =>
    rw [rowKeys, List.map_cons, List.mem_cons] at h
    push_neg at h
    show (if kv.1 = col then (kv.1, coerceCell kv.2) else kv) :: coerceRowAt col t
      = kv :: t
    rw [if_neg (fun he => h.1 he.symm), ih h.2]

theorem rowKeys_coerceRowAt (col : String) (r : Row) :
    rowKeys (coerceRowAt col r) = rowKeys r := by
  induction r with
  | nil => rfl
  | cons kv t ih =>
    show rowKeys ((if kv.1 = col then (kv.1, coerceCell kv.2) else kv)
      :: coerceRowAt col t) = _
    by_cases hc : kv.1 = col <;>
      simp [hc, rowKeys, List.map_cons] <;>
        simpa [rowKeys] using ih

theorem rowLookup_coerceRowAt_same (col : String) (r : Row) :
    rowLookup (coerceRowAt col r) col = coerceCell (rowLookup r col) := by
  induction r with
  | nil => rfl
  | cons kv t ih =>
    show rowLookup ((if kv.1 = col then (kv.1, coerceCell kv.2) else kv)
      :: coerceRowAt col t) col = coerceCell (rowLookup (kv :: t) col)
    by_cases hc : kv.1 = col
    · simp [rowLookup, hc]
    · simp only [if_neg hc, rowLookup, ih]

theorem rowLookup_coerceRowAt_other (col c : String) (hne : col ≠ c) (r : Row) :
    rowLookup (coerceRowAt col r) c = rowLookup r c := by
  induction r with
  | nil => rfl
  | cons kv t ih =>
    show rowLookup ((if kv.1 = col then (kv.1, coerceCell kv.2) else kv)
      :: coerceRowAt col t) c = rowLookup (kv :: t) c
    have hcc : c ≠ col := Ne.symm hne
    by_cases hc : kv.1 = col
    · simp [rowLookup, hc, hne, hcc, ih]
    · by_cases hc2 : kv.1 = c
      · simp [rowLookup, hc, hc2, hcc]
      · simp [rowLookup, hc, hc2, ih]

theorem mem_addKeys_of_mem_acc (k : String) :
    ∀ (ks acc : List String), k ∈ acc → k ∈ addKeys acc ks := by
  intro ks
  induction ks with
  | nil => intro acc h; exact h
  | cons k2 t ih =>
    intro acc h
    show k ∈ addKeys (if k2 ∈ acc then acc else acc ++ [k2]) t
    apply ih
    by_cases h2 : k2 ∈ acc
    · rw [if_pos h2]; exact h
    · rw [if_neg h2]; exact List.mem_append_left _ h

theorem mem_addKeys_of_mem (k : String) :
    ∀ (ks acc : List String), k ∈ ks → k ∈ addKeys acc ks := by
  intro ks
  induction ks with
  | nil => intro acc h; exact absurd h (List.not_mem_nil k)
  | cons k2 t ih =>
    intro acc h
    show k ∈ addKeys (if k2 ∈ acc then acc else acc ++ [k2]) t
    rcases List.mem_cons.mp h with rfl | h
    · apply mem_addKeys_of_mem_acc
      by_cases h2 : k ∈ acc
      · rw [if_pos h2]; exact h2
      · rw [if_neg h2]; exact List.mem_append_right _ (List.mem_singleton_self k)
    · exact ih _ h

theorem mem_dfCols_of_mem_keys (recs : List PyVal) (rec : PyVal) (k : String)
    (hrec : rec ∈ recs) (hk : k ∈ pyvalKeys rec) : k ∈ dfCols recs := by
  unfold dfCols
  suffices hgen : ∀ (l : List PyVal) (acc : List String),
      (k ∈ acc ∨ (rec ∈ l ∧ k ∈ pyvalKeys rec)) →
      k ∈ l.foldl (fun acc v => addKeys acc (pyvalKeys v)) acc by
    exact hgen recs [] (Or.inr ⟨hrec, hk⟩)
  intro l
  induction l with
  | nil =>
    intro acc h
    rcases h with h | ⟨h, -⟩
    · exact h
    · exact absurd h (List.not_mem_nil rec)
  | cons v t ih =>
    intro acc h
    show k ∈ t.foldl _ (addKeys acc (pyvalKeys v))
    rcases h with h | ⟨hv, hk2⟩
    · exact ih _ (Or.inl (mem_addKeys_of_mem_acc k _ _ h))
    · rcases List.mem_cons.mp hv with rfl | hv
      · exact ih _ (Or.inl (mem_addKeys_of_mem k _ _ hk2))
      · exact ih _ (Or.inr ⟨hv, hk2⟩)

theorem rowKeys_mkRow (rec : PyVal) : rowKeys (mkRow rec) = pyvalKeys rec := by
  cases rec <;> simp [rowKeys, mkRow, pyvalKeys]

theorem coerceColDF_cols (d : DataFrame) (col : String) :
    (coerceColDF d col).cols = d.cols := by
  unfold coerceColDF
  split <;> rfl

theorem coerceColDF_rows (d : DataFrame) (col : String)
    (hkeys : ∀ r ∈ d.rows, ∀ k ∈ rowKeys r, k ∈ d.cols) :
    (coerceColDF d col).rows = d.rows.map (coerceRowAt col) := by
  unfold coerceColDF
  split
  · rfl
  · next hcol =>
    show d.rows = d.rows.map (coerceRowAt col)
    have hall : ∀ r ∈ d.rows, coerceRowAt col r = id r := fun r hr =>
      coerceRowAt_of_not_mem col r (fun hk => hcol (hkeys r hr col hk))
    rw [List.map_congr_left hall, List.map_id]

theorem coerceNumericCols_mk_rows (recs : List PyVal) :
    (coerceNumericCols (mkObjFrame recs)).rows = recs.map coerceRec := by
  have hkeys0 : ∀ r ∈ (mkObjFrame recs).rows, ∀ k ∈ rowKeys r,
      k ∈ (mkObjFrame recs).cols := by
    intro r hr k hk
    rcases List.mem_map.mp hr with ⟨rec, hrec, rfl⟩
    rw [rowKeys_mkRow] at hk
    exact mem_dfCols_of_mem_keys recs rec k hrec hk
  have hstep : ∀ (d : DataFrame) (col : String),
      (∀ r ∈ d.rows, ∀ k ∈ rowKeys r, k ∈ d.cols) →
      (∀ r ∈ (coerceColDF d col).rows, ∀ k ∈ rowKeys r, k ∈ (coerceColDF d col).cols) := by
    intro d col hk r hr k hkk
    rw [coerceColDF_rows d col hk] at hr
    rcases List.mem_map.mp hr with ⟨r0, hr0, rfl⟩
    rw [rowKeys_coerceRowAt] at hkk
    rw [coerceColDF_cols]
    exact hk r0 hr0 k hkk
  have e1 := coerceColDF_rows (mkObjFrame recs) "CD Coefficient" hkeys0
  have k1 := hstep (mkObjFrame recs) "CD Coefficient" hkeys0
  have e2 := coerceColDF_rows _ "Fold Change" k1
  have k2 := hstep _ "Fold Change" k1
  have e3 := coerceColDF_rows _ "Log2(Fold Change)" k2
  show (coerceColDF (coerceColDF (coerceColDF (mkObjFrame recs)
    "CD Coefficient") "Fold Change") "Log2(Fold Change)").rows = _
  rw [e3, e2, e1]
  rw [mkObjFrame]
  simp only [List.map_map]
  rfl

theorem rowLookup_coerceRec (rec : PyVal) (c : String) (hc : c ∈ numericColumns) :
    rowLookup (coerceRec rec) c = coerceCell (rowLookup (mkRow rec) c) := by
  unfold coerceRec
  rcases List.mem_cons.mp hc with rfl | hc
  · rw [rowLookup_coerceRowAt_other _ _ (by decide),
      rowLookup_coerceRowAt_other _ _ (by decide),
      rowLookup_coerceRowAt_same]
  rcases List.mem_cons.mp hc with rfl | hc
  · rw [rowLookup_coerceRowAt_other _ _ (by decide),
      rowLookup_coerceRowAt_same,
      rowLookup_coerceRowAt_other _ _ (by decide)]
  rcases List.mem_cons.mp hc with rfl | hc
  · rw [rowLookup_coerceRowAt_same,
      rowLookup_coerceRowAt_other _ _ (by decide),
      rowLookup_coerceRowAt_other _ _ (by decide)]
  exact absurd hc (List.not_mem_nil c)

/-- C7: per-row numeric coercion is local and lossless at the row level.
Under a 2xx response whose decoded body is a non-empty list of object
records (every element a dict — a list mixing dicts with non-dicts
makes `pd.DataFrame` itself raise, and a non-dict-led list lacks the
required column; neither is a coercion matter) with the CD Coefficient
column present, the call always succeeds (no per-row field value can
abort it), the result holds `min top_n count` rows (no record is
dropped by coercion; only the final truncation limits the count), and
every result row is the coerced image of an arriving record; moreover
for each of the three numeric columns the coerced row holds exactly
`coerceCell` of the original cell, and a value that cannot be coerced
becomes the NaN marker. -/
theorem lincs_cp_numeric_coercion (gene direction : String) (n : Int)
    (net : Nat → AttemptOutcome) (status : Nat) (recs : List PyVal) :
    validate_gene_name gene = true → (direction = "up" ∨ direction = "down") →
    0 < n → net 0 = .response status (some (.vlist recs)) →
    200 ≤ status → status < 300 → 0 < recs.length →
    recs.all isObjRec = true →
    "CD Coefficient" ∈ (mkObjFrame recs).cols →
    ((∃ df : DataFrame,
      lincs_cp gene direction n net
        = (.success df, [.urlLog (buildUrl gene direction), .call 0]) ∧
      df.rows.length = min n.toNat recs.length ∧
      (∀ r ∈ df.rows, ∃ rec ∈ recs, r = coerceRec rec)) ∧
    (∀ rec : PyVal, ∀ c ∈ numericColumns,
      rowLookup (coerceRec rec) c = coerceCell (rowLookup (mkRow rec) c)) ∧
    (∀ v : PyVal, toNumeric v = none → coerceCell (.val v) = .nan)) := by
  intro hv hd hn hnet0 h200 h300 hlen hobj hcd
  have hn' : ¬n ≤ 0 := by omega
  have hcond : ¬(400 ≤ status ∧ status < 600) := by omega
  have hfalsy : pyFalsy (PyVal.vlist recs) = false := by
    rcases recs with _ | _
    · simp at hlen
    · rfl
  have hmk : mkDataFrame recs = .ok (mkObjFrame recs) := by
    rcases hrecs : recs with _ | ⟨v, t⟩
    · rw [hrecs] at hlen
      simp at hlen
    · rw [hrecs] at hobj
      have hv2 : isObjRec v = true :=
        List.all_eq_true.mp hobj v (List.mem_cons_self v t)
      simp [mkDataFrame, hv2, hobj]
  refine ⟨?_, fun rec c hc => rowLookup_coerceRec rec c hc, ?_⟩
  · refine ⟨headDF (sortDF (coerceNumericCols (mkObjFrame recs))) n, ?_, ?_, ?_⟩
    · have hfetch : tryAttempts net 3 0 2 [Ev.urlLog (buildUrl gene direction)]
          = (.ok (status, some (.vlist recs)),
             [Ev.urlLog (buildUrl gene direction), .call 0]) := by
        simp only [tryAttempts, hnet0]
        rw [if_neg hcond]
        rfl
      have hdec : decodeAndBuild n (some (PyVal.vlist recs))
          = .ok (headDF (sortDF (coerceNumericCols (mkObjFrame recs))) n) := by
        simp only [decodeAndBuild, hfalsy]
        rw [if_neg (by simp), hmk]
        simp only
        rw [if_pos hcd]
      rcases hd with rfl | rfl <;>
        (unfold lincs_cp;
         rw [if_neg (by simp [hv]), if_neg (by simp), if_neg hn', hfetch,
           finishFetch_ok_ok _ _ _ _ _ hdec])
    · show ((List.insertionSort RowLe
          (coerceNumericCols (mkObjFrame recs)).rows).take n.toNat).length
        = min n.toNat recs.length
      rw [List.length_take,
        (List.perm_insertionSort RowLe _).length_eq,
        coerceNumericCols_mk_rows, List.length_map]
    · intro r hr
      have hr2 : r ∈ List.insertionSort RowLe (coerceNumericCols (mkObjFrame recs)).rows :=
        List.mem_of_mem_take hr
      have hr3 : r ∈ (coerceNumericCols (mkObjFrame recs)).rows :=
        (List.perm_insertionSort RowLe _).subset hr2
      rw [coerceNumericCols_mk_rows] at hr3
      rcases List.mem_map.mp hr3 with ⟨rec, hrec, rfl⟩
      exact ⟨rec, hrec, rfl⟩
  · intro v hv2
    simp [coerceCell, hv2]

/-- C7 witness: the per-cell clause applied at a concrete record whose
CD Coefficient is the non-numeric string "abc": the coerced row holds
the NaN marker for that field. -/
theorem lincs_cp_numeric_coercion_witness :
    rowLookup (coerceRec (.vobj [("CD Coefficient", .vstr "abc")])) "CD Coefficient"
      = coerceCell (.val (.vstr "abc")) :=
  ((lincs_cp_numeric_coercion "BRAF" "up" 5
      (fun _ => .response 200 (some (.vlist [.vobj [("CD Coefficient", .vstr "abc")]])))
      200 [.vobj [("CD Coefficient", .vstr "abc")]]
      (by decide) (Or.inl rfl) (by omega) rfl (by omega) (by omega)
      (by decide) (by decide) (by decide)).2.1)
    (.vobj [("CD Coefficient", .vstr "abc")]) "CD Coefficient" (by decide)

/-! ### Claim C10: the request target -/

/-- Unreserved URI characters (RFC 3986 section 2.3): these are exactly
the characters a percent-encoder leaves unchanged. -/
def isUnreserved (c : Char) : Bool :=
  c.isAlpha || c.isDigit || c = '-' || c = '.' || c = '_' || c = '~'

/-- Upper-case hexadecimal digit of a value below 16. -/
def toHexDigit (m : Nat) : Char :=
  if m < 10 then Char.ofNat ('0'.toNat + m) else Char.ofNat ('A'.toNat + (m - 10))

/-- Percent-encoding of one character (ASCII model: one byte). -/
def pctEncodeChar (c : Char) : List Char :=
  if isUnreserved c then [c]
  else ['%', toHexDigit (c.toNat / 16 % 16), toHexDigit (c.toNat % 16)]

/-- Percent-encoding of a string (ASCII model). -/
def percentEncode (s : String) : String :=
  String.mk (s.data.map pctEncodeChar).flatten

theorem unreserved_of_class (c : Char) (h : geneClassChar c = true) :
    isUnreserved c = true := by
  unfold geneClassChar isPyAlnumChar at h
  unfold isUnreserved
  rcases Bool.or_eq_true_iff.mp h with h | h
  · rcases Bool.or_eq_true_iff.mp h with h | h <;> simp [h]
  · simp [h]

theorem join_pctEncode (l : List Char) (h : ∀ c ∈ l, geneClassChar c = true) :
    (l.map pctEncodeChar).flatten = l := by
  induction l with
  | nil => rfl
  | cons c t ih =>
    rw [List.map_cons, List.flatten_cons,
      ih (fun d hd => h d (List.mem_cons_of_mem c hd)),
      pctEncodeChar, if_pos (unreserved_of_class c (h c (List.mem_cons_self c t)))]
    rfl

theorem percentEncode_of_class (s : String)
    (h : ∀ c ∈ s.data, geneClassChar c = true) : percentEncode s = s := by
  unfold percentEncode
  rw [join_pctEncode s.data h]

/-- C10: for every validated gene symbol the request target built on
line 40 equals the base location joined with the direction and the
percent-encoded trimmed symbol (raw insertion and percent-encoding
agree because every validated character is unreserved), and a valid
call logs exactly this target as its first event. -/
theorem buildUrl_percent_encoded (gene direction : String)
    (hv : validate_gene_name gene = true) :
    buildUrl gene direction
      = BASE ++ "/cp/" ++ direction ++ "/" ++ percentEncode (pyStrip gene) ∧
    (∀ (n : Int) (net : Nat → AttemptOutcome),
      (direction = "up" ∨ direction = "down") → 0 < n →
      (lincs_cp gene direction n net).2.head?
        = some (.urlLog (buildUrl gene direction))) := by
  constructor
  · rw [percentEncode_of_class (pyStrip gene) ((validate_iff gene).mp hv).2.1]
    rfl
  · intro n net hd hn
    rw [lincs_cp_trace_eq]
    rw [if_neg (by simp [hv]), if_neg (not_not_intro hd), if_neg (by omega)]
    rfl

/-- C10 witness: the equation applied at the concrete inputs
`gene = "BRAF"`, `direction = "up"`. -/
theorem buildUrl_percent_encoded_witness :
    buildUrl "BRAF" "up"
      = BASE ++ "/cp/" ++ "up" ++ "/" ++ percentEncode (pyStrip "BRAF") :=
  (buildUrl_percent_encoded "BRAF" "up" (by decide)).1

/-! ### Claim C9: CSV export and round-trip -/

mutual

/-- Printed form of a Python value inside a CSV cell (`str(value)` as
pandas renders object cells; booleans print Python-style). -/
def pyValRaw : PyVal → List Char
  | .vnull => []
  | .vbool b => if b then "True".data else "False".data
  | .vnum q => (toString q).data
  | .vstr s2 => s2.data
  | .vlist xs => '[' :: (pyListRaw xs ++ [']'])
  | .vobj fs => '\x7b' :: (pyObjRaw fs ++ ['\x7d'])

def pyListRaw : List PyVal → List Char
  | [] => []
  | [x] => pyValRaw x
  | x :: y :: t => pyValRaw x ++ ',' :: ' ' :: pyListRaw (y :: t)

def pyObjRaw : List (String × PyVal) → List Char
  | [] => []
  | [kv] => kv.1.data ++ ':' :: ' ' :: pyValRaw kv.2
  | kv :: kv2 :: t => kv.1.data ++ ':' :: ' ' :: pyValRaw kv.2 ++ ',' :: ' ' :: pyObjRaw (kv2 :: t)

end

/-- Raw (unescaped) content of one CSV field: the NaN marker and `None`
serialise as the empty field (pandas `na_rep` default), never as the
word "missing" or "NaN". -/
def cellRaw : Cell → List Char
  | .nan => []
  | .val v => pyValRaw v

/-- A field must be quoted when it holds the delimiter, the quote
character or a line break (QUOTE_MINIMAL, pandas `to_csv` default). -/
def needsQuote (f : List Char) : Bool :=
  f.any (fun c => c = ',' || c = '"' || c = '\n' || c = '\r')

/-- Standard CSV escaping: double every quote character. -/
def escapeChars : List Char → List Char
  | [] => []
  | c :: t => if c = '"' then '"' :: '"' :: escapeChars t else c :: escapeChars t

/-- One serialised CSV field. -/
def writeField (f : List Char) : List Char :=
  if needsQuote f then '"' :: (escapeChars f ++ ['"']) else f

/-- Comma-joined serialised fields of one record. -/
def joinFields : List (List Char) → List Char
  | [] => []
  | [f] => writeField f
  | f :: g :: t => writeField f ++ ',' :: joinFields (g :: t)

/-- One CSV line: the joined fields and the line terminator. -/
def writeLine (fs : List (List Char)) : List Char := joinFields fs ++ ['\n']

/-- Translation of `df.to_csv(index=False)` (line 251): the header line
naming every column in fixed order, then one line per row with the
cells in column order. -/
def toCsvChars (df : DataFrame) : List Char :=
  writeLine (df.cols.map String.data)
    ++ (df.rows.map
        (fun r => writeLine (df.cols.map (fun c => cellRaw (rowLookup r c))))).flatten

/-- pandas `df.empty`: true when either axis has length zero. -/
def pandasEmpty (df : DataFrame) : Bool := df.rows.isEmpty || df.cols.isEmpty

/-- Translation of `convert_df_to_csv` (app.py lines 245-255): `None`
(the empty-export warning path) when `df.empty`, otherwise the CSV
bytes. -/
def convert_df_to_csv (df : DataFrame) : Option (List Char) :=
  if pandasEmpty df = true then none else some (toCsvChars df)

/-- One pass of a standard CSV reader: from the middle of a field,
return the raw first field, the further raw fields of the current
record, and the following records; `none` on empty input (no record
starts here).  A quote toggles the in-quotes flag; separators count
only outside quotes. -/
def scanCsv : List Char → Bool → Option ((List Char × List (List Char)) × List (List (List Char)))
  | [], _ => none
  | c :: t, inQ =>
    if c = '"' then
      match scanCsv t (!inQ) with
      | none => some ((['"'], []), [])
      | some ((f, fs), rs) => some (('"' :: f, fs), rs)
    else if inQ = false ∧ c = ',' then
      match scanCsv t inQ with
      | none => some (([], [[]]), [])
      | some ((f, fs), rs) => some (([], f :: fs), rs)
    else if inQ = false ∧ c = '\n' then
      match scanCsv t false with
      | none => some (([], []), [])
      | some ((f, fs), rs) => some (([], []), (f :: fs) :: rs)
    else
      match scanCsv t inQ with
      | none => some (([c], []), [])
      | some ((f, fs), rs) => some ((c :: f, fs), rs)

/-- The raw records of a CSV text. -/
def rawRecords (l : List Char) : List (List (List Char)) :=
  match scanCsv l false with
  | none => []
  | some ((f, fs), rs) => (f :: fs) :: rs

/-- Undo CSV escaping inside a quoted field: a doubled quote is a
literal quote, the closing quote ends the content. -/
def unescape : List Char → List Char
  | [] => []
  | [c] => if c = '"' then [] else [c]
  | c :: c2 :: t =>
    if c = '"' then
      if c2 = '"' then '"' :: unescape t
      else unescape (c2 :: t)
    else c :: unescape (c2 :: t)

/-- Decode one raw field: strip the quoting layer when present. -/
def unquoteField : List Char → List Char
  | '"' :: t => unescape t
  | l => l

/-- A standard CSV reader: records of decoded fields. -/
def csvParse (l : List Char) : List (List (List Char)) :=
  (rawRecords l).map (List.map unquoteField)

theorem unescape_double_quote (l : List Char) :
    unescape ('"' :: '"' :: l) = '"' :: unescape l := rfl

theorem unescape_cons_ne (c : Char) (hc : c ≠ '"') (l : List Char) (hl : l ≠ []) :
    unescape (c :: l) = c :: unescape l := by
  cases l with
  | nil => exact absurd rfl hl
  | cons c2 t =>
    show (if c = '"' then _ else c :: unescape (c2 :: t)) = _
    rw [if_neg hc]

theorem unescape_escapeChars (f : List Char) :
    unescape (escapeChars f ++ ['"']) = f := by
  induction f with
  | nil => rfl
  | cons c t ih =>
    by_cases hc : c = '"'
    · subst hc
      show unescape ('"' :: '"' :: (escapeChars t ++ ['"'])) = '"' :: t
      rw [unescape_double_quote, ih]
    · show unescape ((if c = '"' then '"' :: '"' :: escapeChars t
        else c :: escapeChars t) ++ ['"']) = c :: t
      rw [if_neg hc]
      show unescape (c :: (escapeChars t ++ ['"'])) = c :: t
      rw [unescape_cons_ne c hc _ (by simp), ih]

theorem not_needsQuote_chars (f : List Char) (h : needsQuote f = false) :
    ∀ c ∈ f, c ≠ ',' ∧ c ≠ '"' ∧ c ≠ '\n' := by
  intro c hc
  rw [needsQuote, List.any_eq_false] at h
  have := h c hc
  simp at this
  exact ⟨this.1.1.1, this.1.1.2, this.1.2⟩

theorem unquoteField_writeField (f : List Char) :
    unquoteField (writeField f) = f := by
  by_cases hq : needsQuote f = true
  · rw [writeField, if_pos hq]
    show unescape (escapeChars f ++ ['"']) = f
    exact unescape_escapeChars f
  · rw [writeField, if_neg hq]
    cases f with
    | nil => rfl
    | cons c t =>
      have hc : c ≠ '"' :=
        (not_needsQuote_chars _ (Bool.not_eq_true _ ▸ hq) c (List.mem_cons_self c t)).2.1
      show unquoteField (c :: t) = c :: t
      unfold unquoteField
      split
      · next t2 heq =>
        injection heq with h1 h2
        exact absurd h1 hc
      · rfl

theorem scanCsv_plain_prepend (f : List Char)
    (hf : ∀ c ∈ f, c ≠ ',' ∧ c ≠ '"' ∧ c ≠ '\n') :
    ∀ (l : List Char) p, scanCsv l false = some p →
      scanCsv (f ++ l) false = some ((f ++ p.1.1, p.1.2), p.2) := by
  induction f with
  | nil =>
    intro l p h
    simpa using h
  | cons c f2 ih =>
    intro l p h
    obtain ⟨hc1, hc2, hc3⟩ := hf c (List.mem_cons_self c f2)
    have ih2 := ih (fun d hd => hf d (List.mem_cons_of_mem c hd)) l p h
    show scanCsv (c :: (f2 ++ l)) false = _
    simp [scanCsv, hc1, hc2, hc3, ih2]

theorem scanCsv_quoted_inner (f : List Char) :
    ∀ (l : List Char) p, scanCsv l false = some p →
      scanCsv (escapeChars f ++ '"' :: l) true
        = some ((escapeChars f ++ '"' :: p.1.1, p.1.2), p.2) := by
  induction f with
  | nil =>
    intro l p h
    show scanCsv ('"' :: l) true = _
    simp [scanCsv, h, escapeChars]
  | cons c f2 ih =>
    intro l p h
    have ih2 := ih l p h
    by_cases hc : c = '"'
    · subst hc
      show scanCsv ('"' :: ('"' :: (escapeChars f2 ++ '"' :: l))) true = _
      simp [scanCsv, ih2, escapeChars]
    · have he : escapeChars (c :: f2) = c :: escapeChars f2 := by
        simp [escapeChars, hc]
      rw [he]
      show scanCsv (c :: (escapeChars f2 ++ '"' :: l)) true = _
      simp [scanCsv, hc, ih2]

theorem scanCsv_writeField (f : List Char) (l : List Char) (p)
    (h : scanCsv l false = some p) :
    scanCsv (writeField f ++ l) false
      = some ((writeField f ++ p.1.1, p.1.2), p.2) := by
  by_cases hq : needsQuote f = true
  · rw [writeField, if_pos hq]
    show scanCsv ('"' :: ((escapeChars f ++ ['"']) ++ l)) false = _
    rw [List.append_assoc]
    show scanCsv ('"' :: (escapeChars f ++ '"' :: l)) false = _
    simp [scanCsv, scanCsv_quoted_inner f l p h, List.append_assoc]
  · rw [writeField, if_neg hq]
    exact scanCsv_plain_prepend f
      (not_needsQuote_chars f (Bool.not_eq_true _ ▸ hq)) l p h

theorem scanCsv_newline (l : List Char) :
    scanCsv ('\n' :: l) false = some (([], []), rawRecords l) := by
  rcases h : scanCsv l false with _ | ⟨⟨f, fs⟩, rs⟩ <;>
    simp [scanCsv, rawRecords, h]

theorem scanCsv_comma (l : List Char) (p) (h : scanCsv l false = some p) :
    scanCsv (',' :: l) false = some (([], p.1.1 :: p.1.2), p.2) := by
  simp [scanCsv, h]

theorem scanCsv_joinFields (fs : List (List Char)) :
    ∀ (f : List Char) (l : List Char),
      scanCsv (joinFields (f :: fs) ++ '\n' :: l) false
        = some ((writeField f, fs.map writeField), rawRecords l) := by
  induction fs with
  | nil =>
    intro f l
    show scanCsv (writeField f ++ '\n' :: l) false = _
    rw [scanCsv_writeField f ('\n' :: l) (([], []), rawRecords l) (scanCsv_newline l)]
    simp
  | cons g t ih =>
    intro f l
    have hg := ih g l
    have hc := scanCsv_comma _ _ hg
    have hshape : joinFields (f :: g :: t) ++ '\n' :: l
        = writeField f ++ (',' :: (joinFields (g :: t) ++ '\n' :: l)) := by
      show (writeField f ++ ',' :: joinFields (g :: t)) ++ '\n' :: l = _
      simp [List.append_assoc]
    rw [hshape, scanCsv_writeField f _ _ hc]
    simp

theorem rawRecords_line (f : List Char) (fs : List (List Char)) (l : List Char) :
    rawRecords (writeLine (f :: fs) ++ l)
      = ((f :: fs).map writeField) :: rawRecords l := by
  have hshape : writeLine (f :: fs) ++ l = joinFields (f :: fs) ++ '\n' :: l := by
    unfold writeLine
    simp [List.append_assoc]
  rw [hshape, rawRecords, scanCsv_joinFields fs f l]
  rfl

theorem rawRecords_flatten (lines : List (List (List Char)))
    (h : ∀ rec ∈ lines, rec ≠ []) :
    rawRecords ((lines.map writeLine).flatten)
      = lines.map (List.map writeField) := by
  induction lines with
  | nil => rfl
  | cons rec t ih =>
    rcases hrec : rec with _ | ⟨f, fs⟩
    · exact absurd hrec (h rec (List.mem_cons_self rec t))
    · rw [List.map_cons, List.flatten_cons, rawRecords_line f fs _,
        ih (fun r hr => h r (List.mem_cons_of_mem rec hr)), List.map_cons]
      rfl

theorem map_unquote_writeField (line : List (List Char)) :
    (line.map writeField).map unquoteField = line := by
  rw [List.map_map]
  have : ∀ f ∈ line, (unquoteField ∘ writeField) f = id f := fun f _ =>
    unquoteField_writeField f
  rw [List.map_congr_left this, List.map_id]

/-- C9 counterexample.  The claim promises success for every non-empty
row set, but `df.empty` is true whenever either axis is empty, so a
frame with two rows and no columns (as `pd.DataFrame([{}, {}])`
produces) takes the empty-export path and returns `None`. -/
theorem convert_df_to_csv_counterexample :
    convert_df_to_csv ⟨[], [[], []]⟩ = none ∧
      (DataFrame.mk [] [[], []]).rows.length = 2 := ⟨rfl, rfl⟩

/-- C9 (amended): exporting a row set with no rows — and likewise the
degenerate frame with no columns — fails with the empty-export result
(`None`); for every frame with at least one row and one column the
export succeeds, and parsing the produced CSV with a standard reader
reproduces the header and then, row by row, exactly the raw field
values of every cell (so the row count and all field values round-trip),
where the missing-value marker serialises as the empty field, never as
a literal word. -/
theorem convert_df_to_csv_round_trip :
    (∀ df : DataFrame, df.rows = [] → convert_df_to_csv df = none) ∧
    (∀ df : DataFrame, df.cols ≠ [] → df.rows ≠ [] →
      convert_df_to_csv df = some (toCsvChars df) ∧
      csvParse (toCsvChars df)
        = df.cols.map String.data
            :: df.rows.map (fun r => df.cols.map (fun c => cellRaw (rowLookup r c))) ∧
      (csvParse (toCsvChars df)).length = df.rows.length + 1) ∧
    cellRaw Cell.nan = [] := by
  refine ⟨?_, ?_, rfl⟩
  · intro df h
    rw [convert_df_to_csv, if_pos]
    rw [pandasEmpty, h]
    rfl
  · intro df hcols hrows
    have hparse : csvParse (toCsvChars df)
        = df.cols.map String.data
            :: df.rows.map (fun r => df.cols.map (fun c => cellRaw (rowLookup r c))) := by
      have hshape : toCsvChars df
          = (((df.cols.map String.data)
              :: df.rows.map (fun r => df.cols.map (fun c => cellRaw (rowLookup r c)))).map
                writeLine).flatten := by
        rw [toCsvChars, List.map_cons, List.flatten_cons]
        rw [List.map_map]
        rfl
      have hne : ∀ rec ∈ (df.cols.map String.data)
          :: df.rows.map (fun r => df.cols.map (fun c => cellRaw (rowLookup r c))),
          rec ≠ [] := by
        intro rec hrec
        rcases List.mem_cons.mp hrec with rfl | hrec
        · simpa using hcols
        · rcases List.mem_map.mp hrec with ⟨r, -, rfl⟩
          simpa using hcols
      rw [csvParse, hshape, rawRecords_flatten _ hne, List.map_map]
      have : ∀ line ∈ (df.cols.map String.data)
          :: df.rows.map (fun r => df.cols.map (fun c => cellRaw (rowLookup r c))),
          (List.map unquoteField ∘ List.map writeField) line = id line := fun line _ =>
        map_unquote_writeField line
      rw [List.map_congr_left this, List.map_id]
    refine ⟨?_, hparse, ?_⟩
    · rw [convert_df_to_csv, if_neg]
      rw [pandasEmpty]
      simp [List.isEmpty_iff, hcols, hrows]
    · rw [hparse]
      simp

/-- C9 witness: the success-and-round-trip clause applied at a concrete
one-row frame whose single cell holds a delimiter. -/
theorem convert_df_to_csv_round_trip_witness :
    convert_df_to_csv ⟨["A"], [[("A", Cell.val (.vstr "x,y"))]]⟩
      = some (toCsvChars ⟨["A"], [[("A", Cell.val (.vstr "x,y"))]]⟩) :=
  ((convert_df_to_csv_round_trip.2.1 ⟨["A"], [[("A", Cell.val (.vstr "x,y"))]]⟩
    (by simp) (by simp))).1

end LincsTool
